import Mathlib

/-!
Shallow embedding of `src/jeopardy/jeopardy.js`, a single-page Jeopardy
trivia board.

Modelling conventions:
* The JS value `null` used for a clue's initial `showing` field is the
  spec's `hidden` state; the strings `"question"` / `"answer"` are the
  other two states of the `Showing` enumeration.
* HTTP responses are modelled as a `Response` record carrying a status
  code and a typed payload; the network is an oracle (`Network`) giving
  the response of the category-list call and of each category-detail
  call, plus the permutation that `data.sort(() => Math.random() - 0.5)`
  produced (with an inconsistent comparator, ECMAScript leaves the
  resulting order implementation-defined, but it is some rearrangement
  of the input, so we quantify over it).
* `Promise.all` is modelled by `promiseAll`, parameterised by the order
  in which the individual promises settle (`completion`, a list of
  indices): slots are written in completion order, and the first error
  encountered in completion order rejects the whole batch.
* The DOM is modelled by `Dom`: visibility flags for `#jeopardy` and
  `#loading`, the contents of the `#jeopardy` table (`Grid`), and the
  list of `alert` messages shown to the user.
* Functions that can throw (`handleClick` dereferences
  `categories[colIndex].clues[rowIndex]` without a bounds check;
  `getCategoryIds` / `getCategory` throw on a non-200 status) return
  `Except`.
-/

namespace Jeopardy

/-- `const NUM_CATEGORIES = 6;` -/
def NUM_CATEGORIES : Nat := 6

/-- `const NUM_QUESTIONS_PER_CAT = 5;` -/
def NUM_QUESTIONS_PER_CAT : Nat := 5

/-- Reveal state of a clue: JS `null` ↦ `hidden`, `"question"`,
`"answer"`. -/
inductive Showing where
  | hidden
  | question
  | answer
deriving DecidableEq, Repr

/-- Transition table of the spec (§4.4): successor of each reveal
state; `answer` is terminal. The code implements this with an
if/else-if chain in `handleClick`; the theorems compare the two. -/
def nextShowing : Showing → Showing
  | Showing.hidden => Showing.question
  | Showing.question => Showing.answer
  | Showing.answer => Showing.answer

/-- A clue object `{question, answer, showing}`. -/
structure Clue where
  question : String
  answer : String
  showing : Showing
deriving DecidableEq, Repr

/-- A category object `{title, clues}`. -/
structure Category where
  title : String
  clues : List Clue
deriving DecidableEq, Repr

/-- An axios-style HTTP response: a status code and a typed payload. -/
structure Response (α : Type) where
  status : Nat
  data : α
deriving DecidableEq, Repr

/-- One record of the remote category-list payload; only `id` (and, for
completeness, `title`) are modelled, `getCategoryIds` consumes only
`id`. -/
structure CatRecord where
  id : Nat
  title : String
deriving DecidableEq, Repr

/-- One remote clue record of the category-detail payload. -/
structure ClueRecord where
  question : String
  answer : String
deriving DecidableEq, Repr

/-- The remote category-detail payload `{title, clues}`. -/
structure CategoryDetail where
  title : String
  clues : List ClueRecord
deriving DecidableEq, Repr

/-- A rendered table cell: its text and its CSS classes. -/
structure Cell where
  text : String
  classes : List String
deriving DecidableEq, Repr

/-- The `#jeopardy` table: header texts (the `<th>` per category) and
the `<tbody>` rows of cells. -/
structure Grid where
  header : List String
  body : List (List Cell)
deriving DecidableEq, Repr

/-- The modelled DOM state. -/
structure Dom where
  jeopardyVisible : Bool
  loadingVisible : Bool
  table : Grid
  alerts : List String
deriving DecidableEq, Repr

/-- Whole-app state: the global `categories` variable plus the DOM. -/
structure AppState where
  categories : List Category
  dom : Dom
deriving DecidableEq, Repr

/-- The network oracle: response of the category-list call, response of
each category-detail call, and the rearrangement the random sort
produced from the category-list payload. -/
structure Network where
  catList : Response (List CatRecord)
  catDetail : Nat → Response CategoryDetail
  shuffled : List CatRecord

/-- The one JS runtime error this code can raise: dereferencing a field
of `undefined`. -/
inductive JsError where
  | typeError
deriving DecidableEq, Repr

/-- `getCategoryIds`: throw on a non-200 status, otherwise shuffle the
payload (the result of the sort is the `shuffled` argument) and return
the ids of the first `NUM_CATEGORIES` records. -/
def getCategoryIds (resp : Response (List CatRecord))
    (shuffled : List CatRecord) : Except String (List Nat) :=
  if resp.status ≠ 200 then
    Except.error "Failed to fetch categories"
  else
    Except.ok ((shuffled.take NUM_CATEGORIES).map (fun cat => cat.id))

/-- The category built from a 200 category-detail response: title plus
each remote clue mapped to `{question, answer, showing: null}`. -/
def loadedCategory (d : CategoryDetail) : Category :=
  { title := d.title
    clues := d.clues.map (fun clue =>
      { question := clue.question
        answer := clue.answer
        showing := Showing.hidden }) }

/-- `getCategory(catId)`: throw on a non-200 status, otherwise map the
payload's clues to the internal shape and return `{title, clues}`. -/
def getCategory (catId : Nat) (resp : Response CategoryDetail) :
    Except String Category :=
  if resp.status ≠ 200 then
    Except.error ("Failed to fetch category with id " ++ toString catId)
  else
    Except.ok (loadedCategory resp.data)

/-- The ids `getCategoryIds` selects for a given network oracle. -/
def selectedIds (net : Network) : List Nat :=
  (net.shuffled.take NUM_CATEGORIES).map (fun cat => cat.id)

/-- `fillTable()`: `$table.empty()` discards the previous contents
(`_t` is deliberately unused), then one `<th>` per category holding its
title, then `NUM_QUESTIONS_PER_CAT` body rows with one `"?"` cell per
category. -/
def fillTable (categories : List Category) (_t : Grid) : Grid :=
  let headerRow : List String := categories.map (fun cat => cat.title)
  let body : List (List Cell) :=
    (List.range NUM_QUESTIONS_PER_CAT).map (fun _ =>
      categories.map (fun _ => ({ text := "?", classes := [] } : Cell)))
  { header := headerRow, body := body }

/-- Apply `f` to the body cell of `g` at row `r`, column `c` (a no-op
when the coordinates name no cell; in the app the coordinates come from
an actual event target, so they always name a cell). -/
def updateCell (g : Grid) (r c : Nat) (f : Cell → Cell) : Grid :=
  { g with body :=
      match g.body.get? r with
      | none => g.body
      | some row =>
        match row.get? c with
        | none => g.body
        | some cell => g.body.set r (row.set c (f cell)) }

/-- `handleClick(evt)`: the event target is the body cell at row `r`
(`$row.index()`), column `c` (`$cell.index()`). The code reads
`categories[colIndex]` and then `.clues` of it with no bounds check, so
an out-of-range column is a `TypeError` (reading `.clues` of
`undefined`), and an out-of-range row is a `TypeError` (reading
`.showing` of `undefined`). Otherwise the clue's `showing` drives the
action: `null` shows the question, `"question"` shows the answer,
`"answer"` ignores the click. -/
def handleClick (categories : List Category) (g : Grid) (r c : Nat) :
    Except JsError (List Category × Grid) :=
  match categories.get? c with
  | none => Except.error JsError.typeError
  | some category =>
    match category.clues.get? r with
    | none => Except.error JsError.typeError
    | some clue =>
      match clue.showing with
      | Showing.hidden =>
        Except.ok
          (categories.set c
            { category with
              clues := category.clues.set r
                { clue with showing := Showing.question } },
           updateCell g r c (fun cell =>
             { text := clue.question
               classes := cell.classes ++ ["question"] }))
      | Showing.question =>
        Except.ok
          (categories.set c
            { category with
              clues := category.clues.set r
                { clue with showing := Showing.answer } },
           updateCell g r c (fun cell =>
             { text := clue.answer
               classes :=
                 cell.classes.filter (fun s => s ≠ "question")
                   ++ ["answer"] }))
      | Showing.answer => Except.ok (categories, g)

/-- The clue at column `c`, row `r` of the board, when it exists. -/
def clueAt (categories : List Category) (c r : Nat) : Option Clue :=
  (categories.get? c).bind (fun cat => cat.clues.get? r)

/-- The reveal state of the clue at column `c`, row `r`, when it
exists. -/
def showingAt (categories : List Category) (c r : Nat) : Option Showing :=
  (clueAt categories c r).map (fun clue => clue.showing)

/-- The title of the category at column `c`, when it exists. -/
def titleAt (categories : List Category) (c : Nat) : Option String :=
  (categories.get? c).map (fun cat => cat.title)

/-- The error of a settled promise, if it rejected. -/
def errOf : Except ε α → Option ε
  | Except.error e => some e
  | Except.ok _ => none

/-- The fulfilled value of promise `i` of the batch, if it exists and
fulfilled. -/
def okAt (ps : List (Except ε α)) (i : Nat) : Option α :=
  match ps.get? i with
  | some (Except.ok v) => some v
  | _ => none

/-- Write the fulfilled values of the batch into a slot array, one
write per entry of `completion`, promise `i` always writing slot `i`
(`okAt ps i`, which is `none` — the slot's initial value — when promise
`i` did not fulfil). -/
def settleSlots (ps : List (Except ε α)) (completion : List Nat) :
    List (Option α) :=
  completion.foldl
    (fun acc i => acc.set i (okAt ps i))
    (List.replicate ps.length none)

/-- `Promise.all`, parameterised by the settlement order: the first
rejection in completion order rejects the batch; otherwise the result
array holds promise `i`'s value in slot `i`, regardless of the order
the slots were written in. -/
def promiseAll (ps : List (Except ε α)) (completion : List Nat) :
    Except ε (List α) :=
  match completion.findSome? (fun i => (ps.get? i).bind errOf) with
  | some e => Except.error e
  | none => Except.ok ((settleSlots ps completion).filterMap id)

/-- `showLoadingView()`: hide `#jeopardy`, show `#loading`. -/
def showLoadingView (d : Dom) : Dom :=
  { d with jeopardyVisible := false, loadingVisible := true }

/-- `hideLoadingView()`: show `#jeopardy`, hide `#loading`. -/
def hideLoadingView (d : Dom) : Dom :=
  { d with jeopardyVisible := true, loadingVisible := false }

/-- The message of the `alert` in `setupAndStart`'s catch block. -/
def failAlert : String :=
  "Failed to load game data. Please try again later."

/-- `setupAndStart()`: show the loading view, fetch the random category
ids, load all categories through `Promise.all` (assigning the global
`categories` only when every load succeeded), fill the table and hide
the loading view; any thrown error lands in the catch block, which only
logs and alerts — it does not touch `categories`, the table, or the
visibility flags. -/
def setupAndStart (net : Network) (completion : List Nat)
    (st : AppState) : AppState :=
  let d0 := showLoadingView st.dom
  match getCategoryIds net.catList net.shuffled with
  | Except.error _ =>
    { st with dom := { d0 with alerts := d0.alerts ++ [failAlert] } }
  | Except.ok ids =>
    match promiseAll (ids.map (fun i => getCategory i (net.catDetail i)))
        completion with
    | Except.error _ =>
      { st with dom := { d0 with alerts := d0.alerts ++ [failAlert] } }
    | Except.ok cats =>
      let d1 := { d0 with table := fillTable cats d0.table }
      { categories := cats, dom := hideLoadingView d1 }

/-- A one-category, one-clue board used as concrete input by the
witness theorems. -/
def sampleCategories : List Category :=
  [{ title := "T", clues := [{ question := "q", answer := "a", showing := Showing.hidden }] }]

/-- The grid rendered from `sampleCategories` restricted to one row
(one placeholder cell), used as concrete input by the witness
theorems. -/
def sampleGrid : Grid :=
  { header := ["T"], body := [[{ text := "?", classes := [] }]] }

/-- `sampleCategories` after one activation of its only clue. -/
def sampleCategoriesQ : List Category :=
  [{ title := "T", clues := [{ question := "q", answer := "a", showing := Showing.question }] }]

/-- `sampleGrid` after one activation of its only cell. -/
def sampleGridQ : Grid :=
  { header := ["T"], body := [[{ text := "q", classes := ["question"] }]] }

/-- A board with the reference clue count, used as concrete input by
the witness theorems. -/
def validBoard : List Category :=
  [{ title := "T", clues := List.replicate NUM_QUESTIONS_PER_CAT { question := "q", answer := "a", showing := Showing.hidden } }]

/-- A network oracle on which every call succeeds, used as concrete
input by the witness theorems. -/
def netOk : Network :=
  { catList := { status := 200, data := [] }
    catDetail := fun _ =>
      { status := 200
        data := { title := "C", clues := [{ question := "q", answer := "a" }] } }
    shuffled := [{ id := 1, title := "A" }, { id := 2, title := "B" },
      { id := 3, title := "C" }, { id := 4, title := "D" },
      { id := 5, title := "E" }, { id := 6, title := "F" }] }

/-- A network oracle on which exactly one category-detail call (id 3)
fails, used as concrete input by the witness theorems. -/
def netOneFail : Network :=
  { catList := { status := 200, data := [] }
    catDetail := fun i =>
      if i = 3 then { status := 500, data := { title := "", clues := [] } }
      else { status := 200
             data := { title := "C", clues := [{ question := "q", answer := "a" }] } }
    shuffled := [{ id := 1, title := "A" }, { id := 2, title := "B" },
      { id := 3, title := "C" }, { id := 4, title := "D" },
      { id := 5, title := "E" }, { id := 6, title := "F" }] }

/-- A network oracle whose category-list call returns a non-success
status. -/
def badNet : Network :=
  { catList := { status := 500, data := [] }
    catDetail := fun _ =>
      { status := 200, data := { title := "", clues := [] } }
    shuffled := [] }

/-- A settlement order that differs from the dispatch order of the six
category loads. -/
def completionW : List Nat := [5, 0, 4, 1, 3, 2]

/-- A fresh app state (nothing loaded yet). -/
def st0 : AppState :=
  { categories := []
    dom := { jeopardyVisible := false, loadingVisible := false,
             table := { header := [], body := [] }, alerts := [] } }

/-- An app state left over from a previous successful game: a rendered
board and a dismissed loading indicator. -/
def stStale : AppState :=
  { categories := sampleCategoriesQ
    dom := { jeopardyVisible := true, loadingVisible := false,
             table := sampleGridQ, alerts := [] } }

/-! ## Helper lemmas -/

theorem get?_set_self {α : Type} (l : List α) (n : Nat) (a : α)
    (h : n < l.length) : (l.set n a).get? n = some a := by
  rw [List.get?_eq_getElem?, List.getElem?_set_eq_of_lt a h]

theorem get?_set_other {α : Type} (l : List α) (m n : Nat) (a : α)
    (h : m ≠ n) : (l.set m a).get? n = l.get? n := by
  rw [List.get?_eq_getElem?, List.get?_eq_getElem?,
    List.getElem?_set_ne h]

/-- Evaluation of `handleClick` when the addressed clue is hidden. -/
theorem handleClick_eq_hidden {categories : List Category} {c r : Nat}
    {category : Category} {clue : Clue} (g : Grid)
    (hcat : categories.get? c = some category)
    (hclue : category.clues.get? r = some clue)
    (hshow : clue.showing = Showing.hidden) :
    handleClick categories g r c = Except.ok
      (categories.set c
        { category with clues := category.clues.set r { clue with showing := Showing.question } },
       updateCell g r c (fun cell =>
         { text := clue.question
           classes := cell.classes ++ ["question"] })) := by
  simp only [handleClick, hcat, hclue, hshow]

/-- Evaluation of `handleClick` when the addressed clue shows its
question. -/
theorem handleClick_eq_question {categories : List Category} {c r : Nat}
    {category : Category} {clue : Clue} (g : Grid)
    (hcat : categories.get? c = some category)
    (hclue : category.clues.get? r = some clue)
    (hshow : clue.showing = Showing.question) :
    handleClick categories g r c = Except.ok
      (categories.set c
        { category with clues := category.clues.set r { clue with showing := Showing.answer } },
       updateCell g r c (fun cell =>
         { text := clue.answer
           classes := cell.classes.filter (fun s => s ≠ "question")
             ++ ["answer"] })) := by
  simp only [handleClick, hcat, hclue, hshow]

/-- Evaluation of `handleClick` when the addressed clue already shows
its answer: the click is ignored. -/
theorem handleClick_eq_answer {categories : List Category} {c r : Nat}
    {category : Category} {clue : Clue} (g : Grid)
    (hcat : categories.get? c = some category)
    (hclue : category.clues.get? r = some clue)
    (hshow : clue.showing = Showing.answer) :
    handleClick categories g r c = Except.ok (categories, g) := by
  simp only [handleClick, hcat, hclue, hshow]

/-- Reading back the position that was overwritten. -/
theorem clueAt_set {categories : List Category} {c r : Nat}
    {category : Category} (hcat : categories.get? c = some category)
    (hr : r < category.clues.length) (clue' : Clue) :
    clueAt (categories.set c
      { category with clues := category.clues.set r clue' }) c r
      = some clue' := by
  have hc : c < categories.length := (List.get?_eq_some.mp hcat).1
  unfold clueAt
  rw [get?_set_self categories c _ hc, Option.some_bind]
  exact get?_set_self category.clues r clue' hr

/-- Reading back any other position: unchanged. -/
theorem clueAt_set_other {categories : List Category} {c r : Nat}
    {category : Category} (hcat : categories.get? c = some category)
    (clue' : Clue) (c' r' : Nat) (hne : ¬(c' = c ∧ r' = r)) :
    clueAt (categories.set c
      { category with clues := category.clues.set r clue' }) c' r'
      = clueAt categories c' r' := by
  unfold clueAt
  by_cases hcc : c' = c
  · subst hcc
    have hc : c' < categories.length := (List.get?_eq_some.mp hcat).1
    have hrr : r ≠ r' := fun h => hne ⟨rfl, h.symm⟩
    rw [get?_set_self categories c' _ hc, hcat, Option.some_bind,
      Option.some_bind]
    exact get?_set_other category.clues r r' clue' hrr
  · rw [get?_set_other categories c c' _ (fun h => hcc h.symm)]

/-- Titles after overwriting one category's clues: all unchanged. -/
theorem titleAt_set {categories : List Category} {c : Nat}
    {category : Category} (hcat : categories.get? c = some category)
    (clues' : List Clue) (c' : Nat) :
    titleAt (categories.set c { category with clues := clues' }) c'
      = titleAt categories c' := by
  unfold titleAt
  by_cases hcc : c = c'
  · subst hcc
    have hc : c < categories.length := (List.get?_eq_some.mp hcat).1
    rw [get?_set_self categories c _ hc, hcat]
    simp
  · rw [get?_set_other categories c c' _ hcc]

/-! ## Theorems about the reveal controller (`handleClick`) -/

/-- C10: `handleClick` performs no bounds check: whenever the resolved
column index is at least the number of categories (e.g. any cell click
while `categories` is still the empty array), `categories[colIndex]` is
`undefined` and reading `.clues` of it throws a `TypeError` instead of
the click being rejected gracefully. -/
theorem handleClick_out_of_range_throws (categories : List Category)
    (g : Grid) (r c : Nat) (hc : categories.length ≤ c) :
    handleClick categories g r c = Except.error JsError.typeError := by
  unfold handleClick
  rw [List.get?_eq_none.mpr hc]

/-- Witness for C10: clicking cell (0,0) with the initial empty
`categories` array throws. -/
theorem handleClick_out_of_range_throws_witness :
    ([] : List Category).length ≤ 0 ∧
    handleClick [] { header := [], body := [] } 0 0
      = Except.error JsError.typeError :=
  ⟨Nat.le_refl 0,
   handleClick_out_of_range_throws [] { header := [], body := [] } 0 0
     (Nat.le_refl 0)⟩

/-- C1: the reveal state of a clue only ever moves along
hidden → question → answer under `handleClick`: activation succeeds and
takes the addressed clue's state to `nextShowing` of its current state
(hidden ↦ question, question ↦ answer, answer ↦ answer), and an
activation in the terminal state `answer` changes neither the board nor
the displayed grid (repeated activation is a no-op). -/
theorem handleClick_state_machine (categories : List Category) (g : Grid)
    (r c : Nat) (s : Showing)
    (hs : showingAt categories c r = some s) :
    ∃ categories' g',
      handleClick categories g r c = Except.ok (categories', g') ∧
      showingAt categories' c r = some (nextShowing s) ∧
      (s = Showing.answer → categories' = categories ∧ g' = g) := by
  unfold showingAt clueAt at hs
  cases hcat : categories.get? c with
  | none => rw [hcat] at hs; simp at hs
  | some category =>
    rw [hcat] at hs
    simp only [Option.some_bind] at hs
    cases hclue : category.clues.get? r with
    | none => rw [hclue] at hs; simp at hs
    | some clue =>
      rw [hclue] at hs
      simp only [Option.map_some'] at hs
      have hr : r < category.clues.length := (List.get?_eq_some.mp hclue).1
      obtain ⟨q, a, sh⟩ := clue
      cases hs
      cases sh with
      | hidden =>
        refine ⟨_, _, handleClick_eq_hidden g hcat hclue rfl, ?_, ?_⟩
        · unfold showingAt
          rw [clueAt_set hcat hr]
          rfl
        · intro h; simp at h
      | question =>
        refine ⟨_, _, handleClick_eq_question g hcat hclue rfl, ?_, ?_⟩
        · unfold showingAt
          rw [clueAt_set hcat hr]
          rfl
        · intro h; simp at h
      | answer =>
        refine ⟨categories, g, handleClick_eq_answer g hcat hclue rfl,
          ?_, fun _ => ⟨rfl, rfl⟩⟩
        unfold showingAt clueAt
        rw [hcat, Option.some_bind, hclue]
        rfl

/-- Witness for C1: in a one-clue board whose clue is hidden, the
activation succeeds and moves the clue to `question`. -/
theorem handleClick_state_machine_witness :
    showingAt sampleCategories 0 0 = some Showing.hidden ∧
    (∃ categories' g',
      handleClick sampleCategories sampleGrid 0 0
        = Except.ok (categories', g') ∧
      showingAt categories' 0 0 = some (nextShowing Showing.hidden) ∧
      (Showing.hidden = Showing.answer →
        categories' = sampleCategories ∧ g' = sampleGrid)) :=
  ⟨rfl, handleClick_state_machine sampleCategories sampleGrid 0 0
    Showing.hidden rfl⟩

/-- C7: an activation at row `r`, column `c` of the rendered grid is
resolved to exactly the clue `board[c].clues[r]` — the column picks the
category, the row picks the clue within it — and it is that clue whose
reveal state is advanced. -/
theorem handleClick_resolves_row_col (categories : List Category)
    (g : Grid) (r c : Nat) (clue : Clue)
    (hclue : clueAt categories c r = some clue) :
    ∃ categories' g',
      handleClick categories g r c = Except.ok (categories', g') ∧
      clueAt categories' c r
        = some { clue with showing := nextShowing clue.showing } := by
  unfold clueAt at hclue
  cases hcat : categories.get? c with
  | none => rw [hcat] at hclue; simp at hclue
  | some category =>
    rw [hcat] at hclue
    simp only [Option.some_bind] at hclue
    cases hclue' : category.clues.get? r with
    | none => rw [hclue'] at hclue; simp at hclue
    | some clue0 =>
      rw [hclue'] at hclue
      injection hclue with hclue
      subst hclue
      have hr : r < category.clues.length :=
        (List.get?_eq_some.mp hclue').1
      obtain ⟨q, a, sh⟩ := clue0
      cases sh with
      | hidden =>
        exact ⟨_, _, handleClick_eq_hidden g hcat hclue' rfl,
          clueAt_set hcat hr _⟩
      | question =>
        exact ⟨_, _, handleClick_eq_question g hcat hclue' rfl,
          clueAt_set hcat hr _⟩
      | answer =>
        refine ⟨categories, g, handleClick_eq_answer g hcat hclue' rfl, ?_⟩
        unfold clueAt
        rw [hcat, Option.some_bind, hclue']
        rfl

/-- Witness for C7: the activation at row 0, column 0 of the sample
board advances exactly the clue `board[0].clues[0]`. -/
theorem handleClick_resolves_row_col_witness :
    clueAt sampleCategories 0 0
      = some { question := "q", answer := "a", showing := Showing.hidden } ∧
    (∃ categories' g',
      handleClick sampleCategories sampleGrid 0 0
        = Except.ok (categories', g') ∧
      clueAt categories' 0 0
        = some { question := "q", answer := "a"
                 showing := nextShowing Showing.hidden }) :=
  ⟨rfl, handleClick_resolves_row_col sampleCategories sampleGrid 0 0
    { question := "q", answer := "a", showing := Showing.hidden } rfl⟩

/-- C9: a successful activation mutates at most the `showing` field of
the single clue addressed by the clicked cell's row and column: the
board keeps its length, every category title is unchanged, every other
clue of every category is unchanged, and the addressed clue keeps its
`question` and `answer` texts. -/
theorem handleClick_frame (categories : List Category) (g : Grid)
    (r c : Nat) (p : List Category × Grid)
    (h : handleClick categories g r c = Except.ok p) :
    p.1.length = categories.length ∧
    (∀ c', titleAt p.1 c' = titleAt categories c') ∧
    (∀ c' r', ¬(c' = c ∧ r' = r) →
      clueAt p.1 c' r' = clueAt categories c' r') ∧
    (∀ clue clue', clueAt categories c r = some clue →
      clueAt p.1 c r = some clue' →
      clue'.question = clue.question ∧ clue'.answer = clue.answer) := by
  cases hcat : categories.get? c with
  | none =>
    have herr : handleClick categories g r c
        = Except.error JsError.typeError := by
      simp only [handleClick, hcat]
    rw [herr] at h
    simp at h
  | some category =>
    cases hclue : category.clues.get? r with
    | none =>
      have herr : handleClick categories g r c
          = Except.error JsError.typeError := by
        simp only [handleClick, hcat, hclue]
      rw [herr] at h
      simp at h
    | some clue0 =>
      have hr : r < category.clues.length :=
        (List.get?_eq_some.mp hclue).1
      have hAt : clueAt categories c r = some clue0 := by
        unfold clueAt
        rw [hcat, Option.some_bind, hclue]
      obtain ⟨q, a, sh⟩ := clue0
      cases sh with
      | hidden =>
        rw [handleClick_eq_hidden g hcat hclue rfl] at h
        injection h with h
        subst h
        refine ⟨List.length_set _ _ _, fun c' => titleAt_set hcat _ c',
          fun c' r' hne => clueAt_set_other hcat _ c' r' hne,
          fun clue clue' h1 h2 => ?_⟩
        rw [hAt] at h1
        rw [clueAt_set hcat hr] at h2
        injection h1 with h1
        injection h2 with h2
        subst h1
        subst h2
        exact ⟨rfl, rfl⟩
      | question =>
        rw [handleClick_eq_question g hcat hclue rfl] at h
        injection h with h
        subst h
        refine ⟨List.length_set _ _ _, fun c' => titleAt_set hcat _ c',
          fun c' r' hne => clueAt_set_other hcat _ c' r' hne,
          fun clue clue' h1 h2 => ?_⟩
        rw [hAt] at h1
        rw [clueAt_set hcat hr] at h2
        injection h1 with h1
        injection h2 with h2
        subst h1
        subst h2
        exact ⟨rfl, rfl⟩
      | answer =>
        rw [handleClick_eq_answer g hcat hclue rfl] at h
        injection h with h
        subst h
        refine ⟨rfl, fun c' => rfl, fun c' r' hne => rfl,
          fun clue clue' h1 h2 => ?_⟩
        rw [h1] at h2
        injection h2 with h2
        subst h2
        exact ⟨rfl, rfl⟩

/-- Witness for C9: the frame condition evaluated on the sample board's
only activation. -/
theorem handleClick_frame_witness :
    handleClick sampleCategories sampleGrid 0 0
      = Except.ok (sampleCategoriesQ, sampleGridQ) ∧
    ((sampleCategoriesQ, sampleGridQ).1.length = sampleCategories.length ∧
     (∀ c', titleAt (sampleCategoriesQ, sampleGridQ).1 c'
       = titleAt sampleCategories c') ∧
     (∀ c' r', ¬(c' = 0 ∧ r' = 0) →
       clueAt (sampleCategoriesQ, sampleGridQ).1 c' r'
         = clueAt sampleCategories c' r') ∧
     (∀ clue clue', clueAt sampleCategories 0 0 = some clue →
       clueAt (sampleCategoriesQ, sampleGridQ).1 0 0 = some clue' →
       clue'.question = clue.question ∧ clue'.answer = clue.answer)) :=
  ⟨rfl, handleClick_frame sampleCategories sampleGrid 0 0
    (sampleCategoriesQ, sampleGridQ) rfl⟩

/-! ## Theorems about the board renderer (`fillTable`) -/

/-- C8: every invocation of `fillTable` clears the previous grid first:
its output is independent of the prior table contents (rebuilding over
any stale grid equals rebuilding over the empty table), and every body
cell of the output is the freshly created placeholder cell, so no cell
rendered in an earlier game session remains in the displayed grid. -/
theorem fillTable_clears_previous (categories : List Category)
    (t : Grid) :
    fillTable categories t
      = fillTable categories { header := [], body := [] } ∧
    ∀ row ∈ (fillTable categories t).body, ∀ cell ∈ row,
      cell = { text := "?", classes := [] } := by
  refine ⟨rfl, ?_⟩
  intro row hrow cell hcell
  unfold fillTable at hrow
  simp only [List.mem_map] at hrow
  obtain ⟨i, _, hrow⟩ := hrow
  subst hrow
  simp only [List.mem_map] at hcell
  obtain ⟨cat, _, hcell⟩ := hcell
  exact hcell.symm

/-- C5: for every valid board (each category holding
`NUM_QUESTIONS_PER_CAT` clues), `fillTable` renders one header cell per
category showing its title (so exactly `categories.length` header
cells), `NUM_QUESTIONS_PER_CAT` body rows of one cell per category —
`categories.length * NUM_QUESTIONS_PER_CAT` body cells in total — and
every body cell initially shows the fixed placeholder `"?"` regardless
of the clues' question and answer texts. -/
theorem fillTable_shape (categories : List Category) (t : Grid)
    (hval : ∀ cat ∈ categories,
      cat.clues.length = NUM_QUESTIONS_PER_CAT) :
    (fillTable categories t).header
      = categories.map (fun cat => cat.title) ∧
    (fillTable categories t).header.length = categories.length ∧
    (fillTable categories t).body.length = NUM_QUESTIONS_PER_CAT ∧
    (∀ row ∈ (fillTable categories t).body,
      row.length = categories.length) ∧
    (fillTable categories t).body.flatten.length
      = categories.length * NUM_QUESTIONS_PER_CAT ∧
    (∀ row ∈ (fillTable categories t).body, ∀ cell ∈ row,
      cell.text = "?") := by
  refine ⟨rfl, by simp [fillTable], by simp [fillTable], ?_, ?_, ?_⟩
  · intro row hrow
    unfold fillTable at hrow
    simp only [List.mem_map] at hrow
    obtain ⟨i, _, hrow⟩ := hrow
    subst hrow
    simp
  · unfold fillTable
    simp [List.length_flatten, List.map_map, Function.comp,
      Nat.mul_comm]
  · intro row hrow cell hcell
    unfold fillTable at hrow
    simp only [List.mem_map] at hrow
    obtain ⟨i, _, hrow⟩ := hrow
    subst hrow
    simp only [List.mem_map] at hcell
    obtain ⟨cat, _, hcell⟩ := hcell
    rw [← hcell]

/-- Witness for C5: the shape facts evaluated on a one-category board
with the reference clue count. -/
theorem fillTable_shape_witness :
    (∀ cat ∈ validBoard,
      cat.clues.length = NUM_QUESTIONS_PER_CAT) ∧
    ((fillTable validBoard sampleGrid).header
      = validBoard.map (fun cat => cat.title) ∧
    (fillTable validBoard sampleGrid).header.length = validBoard.length ∧
    (fillTable validBoard sampleGrid).body.length
      = NUM_QUESTIONS_PER_CAT ∧
    (∀ row ∈ (fillTable validBoard sampleGrid).body,
      row.length = validBoard.length) ∧
    (fillTable validBoard sampleGrid).body.flatten.length
      = validBoard.length * NUM_QUESTIONS_PER_CAT ∧
    (∀ row ∈ (fillTable validBoard sampleGrid).body, ∀ cell ∈ row,
      cell.text = "?")) :=
  ⟨by decide, fillTable_shape validBoard sampleGrid (by decide)⟩

/-! ## Theorems about `promiseAll` -/

/-- Slot contents after settling in any order: a slot that was settled
holds its promise's fulfilled value (if any); untouched slots keep
their initial contents. -/
theorem settle_foldl_get {ε α : Type} (ps : List (Except ε α))
    (completion : List Nat) :
    ∀ (init : List (Option α)), init.length = ps.length → ∀ j,
      (completion.foldl (fun acc i => acc.set i (okAt ps i)) init).get? j
      = if j ∈ completion ∧ j < ps.length then some (okAt ps j)
        else init.get? j := by
  induction completion with
  | nil =>
    intro init _ j
    simp
  | cons i rest ih =>
    intro init hlen j
    simp only [List.foldl_cons]
    rw [ih (init.set i (okAt ps i))
      (by rw [List.length_set]; exact hlen) j]
    by_cases hjr : j ∈ rest ∧ j < ps.length
    · rw [if_pos hjr, if_pos ⟨List.mem_cons_of_mem i hjr.1, hjr.2⟩]
    · rw [if_neg hjr]
      by_cases hji : j = i
      · subst hji
        by_cases hjlt : j < ps.length
        · rw [if_pos ⟨List.mem_cons_self j rest, hjlt⟩,
            get?_set_self init j (okAt ps j) (by rw [hlen]; exact hjlt)]
        · rw [if_neg (fun hcon => hjlt hcon.2),
            List.set_eq_of_length_le (by rw [hlen]; omega)]
      · rw [get?_set_other init i j _ (fun h => hji h.symm),
          if_neg (fun hcon =>
            hjr ⟨(List.mem_cons.mp hcon.1).resolve_left hji, hcon.2⟩)]

/-- When every promise fulfilled and every index was settled, the slot
array is exactly the values in dispatch order, whatever the settlement
order was. -/
theorem settleSlots_all_ok {α : Type} (vals : List α)
    (completion : List Nat)
    (hcov : ∀ j, j < vals.length → j ∈ completion) :
    settleSlots ((vals.map Except.ok : List (Except String α)))
      completion = vals.map some := by
  apply List.ext_get?
  intro j
  unfold settleSlots
  rw [settle_foldl_get _ completion _
    (by rw [List.length_replicate]) j]
  have hokAt : okAt (vals.map Except.ok : List (Except String α)) j
      = vals.get? j := by
    unfold okAt
    rw [List.get?_map]
    cases vals.get? j <;> rfl
  by_cases hj : j < vals.length
  · rw [if_pos ⟨hcov j hj, by simpa using hj⟩, hokAt, List.get?_map]
    cases hv : vals.get? j with
    | none => exact absurd hj (by simpa using List.get?_eq_none.mp hv)
    | some v => rfl
  · rw [if_neg (fun hcon => hj (by simpa using hcon.2)),
      List.get?_eq_none.mpr (by simpa using hj),
      List.get?_eq_none.mpr (by simpa using hj)]

/-- `Promise.all` over promises that all fulfilled: whenever every
index gets settled, the batch fulfils with the values in dispatch
order — independent of the settlement order. -/
theorem promiseAll_ok {α : Type} (vals : List α) (completion : List Nat)
    (hcov : ∀ j, j < vals.length → j ∈ completion) :
    promiseAll (vals.map Except.ok : List (Except String α)) completion
      = Except.ok vals := by
  unfold promiseAll
  have hfind : completion.findSome?
      (fun i => ((vals.map Except.ok : List (Except String α)).get? i).bind errOf)
      = none := by
    rw [List.findSome?_eq_none_iff]
    intro i _
    rw [List.get?_map]
    cases vals.get? i <;> rfl
  rw [hfind, settleSlots_all_ok vals completion hcov]
  simp

/-- `Promise.all` rejects whenever one of its promises rejected and got
settled. -/
theorem promiseAll_err {ε α : Type} (ps : List (Except ε α))
    (completion : List Nat) (j : Nat) (e : ε) (hj : j ∈ completion)
    (hpe : ps.get? j = some (Except.error e)) :
    ∃ e', promiseAll ps completion = Except.error e' := by
  unfold promiseAll
  cases hfind : completion.findSome? (fun i => (ps.get? i).bind errOf) with
  | some e' => exact ⟨e', rfl⟩
  | none =>
    rw [List.findSome?_eq_none_iff] at hfind
    have hcon := hfind j hj
    rw [hpe] at hcon
    simp [errOf] at hcon

/-! ## Theorems about the lifecycle controller (`setupAndStart`) -/

/-- `getCategoryIds` on a 200 response returns the ids of the first
`NUM_CATEGORIES` entries of the shuffled pool. -/
theorem getCategoryIds_ok (resp : Response (List CatRecord))
    (shuffled : List CatRecord) (h200 : resp.status = 200) :
    getCategoryIds resp shuffled
      = Except.ok ((shuffled.take NUM_CATEGORIES).map (fun cat => cat.id)) := by
  unfold getCategoryIds
  rw [if_neg (by rw [h200]; simp)]

/-- `setupAndStart` when the category-list call fails: only the
loading view and the alert change. -/
theorem setupAndStart_eq_of_fetch_failure (net : Network)
    (completion : List Nat) (st : AppState)
    (hbad : net.catList.status ≠ 200) :
    setupAndStart net completion st
      = { st with dom := { st.dom with jeopardyVisible := false, loadingVisible := true, alerts := st.dom.alerts ++ [failAlert] } } := by
  unfold setupAndStart
  have herr : getCategoryIds net.catList net.shuffled
      = Except.error "Failed to fetch categories" := by
    unfold getCategoryIds
    rw [if_pos hbad]
  rw [herr]
  rfl

/-- `setupAndStart` when the list call succeeds but some settled
category load fails: only the loading view and the alert change. -/
theorem setupAndStart_eq_of_load_failure (net : Network)
    (completion : List Nat) (st : AppState)
    (h200 : net.catList.status = 200)
    (hcov : ∀ j, j < (selectedIds net).length → j ∈ completion)
    (hfail : ∃ i ∈ selectedIds net, (net.catDetail i).status ≠ 200) :
    setupAndStart net completion st
      = { st with dom := { st.dom with jeopardyVisible := false, loadingVisible := true, alerts := st.dom.alerts ++ [failAlert] } } := by
  unfold setupAndStart
  obtain ⟨i, hi, hne⟩ := hfail
  obtain ⟨j, hj⟩ := List.mem_iff_get?.mp hi
  have hjlt : j < (selectedIds net).length := (List.get?_eq_some.mp hj).1
  have hpe : ((selectedIds net).map
        (fun i => getCategory i (net.catDetail i))).get? j
      = some (Except.error
          ("Failed to fetch category with id " ++ toString i)) := by
    rw [List.get?_map, hj]
    unfold getCategory
    simp only [Option.map_some']
    rw [if_pos hne]
  obtain ⟨e', he'⟩ := promiseAll_err _ completion j _ (hcov j hjlt)
    (by exact hpe)
  rw [show getCategoryIds net.catList net.shuffled
      = Except.ok (selectedIds net) from getCategoryIds_ok _ _ h200]
  simp only [he']
  rfl

/-- Evaluation of `setupAndStart` on the success path: list call 200,
every selected category's detail call 200, every dispatched load
settled. -/
theorem setupAndStart_eq_of_success (net : Network)
    (completion : List Nat) (st : AppState)
    (h200 : net.catList.status = 200)
    (hdet : ∀ i ∈ selectedIds net, (net.catDetail i).status = 200)
    (hcov : ∀ j, j < (selectedIds net).length → j ∈ completion) :
    setupAndStart net completion st
      = { categories := (selectedIds net).map
            (fun i => loadedCategory (net.catDetail i).data),
          dom := { jeopardyVisible := true, loadingVisible := false,
                   table := fillTable ((selectedIds net).map
                     (fun i => loadedCategory (net.catDetail i).data))
                     st.dom.table,
                   alerts := st.dom.alerts } } := by
  unfold setupAndStart
  rw [show getCategoryIds net.catList net.shuffled
      = Except.ok (selectedIds net) from getCategoryIds_ok _ _ h200]
  have hmap : (selectedIds net).map
        (fun i => getCategory i (net.catDetail i))
      = ((selectedIds net).map
          (fun i => loadedCategory (net.catDetail i).data)).map
            Except.ok := by
    rw [List.map_map]
    apply List.map_congr_left
    intro i hi
    unfold getCategory
    rw [if_neg (by rw [hdet i hi]; simp)]
    rfl
  have hok := promiseAll_ok
    ((selectedIds net).map (fun i => loadedCategory (net.catDetail i).data))
    completion
    (by intro j hj; exact hcov j (by simpa using hj))
  simp only [hmap, hok]
  rfl

/-- C2: the order of categories in the assembled board — and hence the
left-to-right rendered column order — equals the identifier order
returned by the fetcher, regardless of the order `completion` in which
the individual category loads settle. -/
theorem setupAndStart_preserves_id_order (net : Network)
    (completion : List Nat) (st : AppState)
    (h200 : net.catList.status = 200)
    (hdet : ∀ i ∈ selectedIds net, (net.catDetail i).status = 200)
    (hcov : ∀ j, j < (selectedIds net).length → j ∈ completion) :
    (setupAndStart net completion st).categories
      = (selectedIds net).map
          (fun i => loadedCategory (net.catDetail i).data) ∧
    (setupAndStart net completion st).dom.table.header
      = (selectedIds net).map (fun i => (net.catDetail i).data.title) := by
  rw [setupAndStart_eq_of_success net completion st h200 hdet hcov]
  refine ⟨rfl, ?_⟩
  show ((selectedIds net).map
      (fun i => loadedCategory (net.catDetail i).data)).map
        (fun cat => cat.title)
    = (selectedIds net).map (fun i => (net.catDetail i).data.title)
  rw [List.map_map]
  rfl

/-- Witness for C2: a settlement order that differs from the dispatch
order still yields the board in id order. -/
theorem setupAndStart_preserves_id_order_witness :
    netOk.catList.status = 200 ∧
    (∀ i ∈ selectedIds netOk, (netOk.catDetail i).status = 200) ∧
    (∀ j, j < (selectedIds netOk).length → j ∈ completionW) ∧
    ((setupAndStart netOk completionW st0).categories
      = (selectedIds netOk).map
          (fun i => loadedCategory (netOk.catDetail i).data) ∧
    (setupAndStart netOk completionW st0).dom.table.header
      = (selectedIds netOk).map
          (fun i => (netOk.catDetail i).data.title)) :=
  ⟨rfl, by decide, by decide,
   setupAndStart_preserves_id_order netOk completionW st0 rfl
     (by decide) (by decide)⟩

/-- C3: atomicity of game start on error: when one of the dispatched
category loads fails (even if every other one succeeds), the whole
attempt fails — the global `categories` keeps exactly its value from
before the attempt, no table is rendered (the grid is untouched), and
the failure alert is raised. -/
theorem setupAndStart_atomic_on_failure (net : Network)
    (completion : List Nat) (st : AppState)
    (h200 : net.catList.status = 200)
    (hcov : ∀ j, j < (selectedIds net).length → j ∈ completion)
    (hfail : ∃ i ∈ selectedIds net, (net.catDetail i).status ≠ 200) :
    (setupAndStart net completion st).categories = st.categories ∧
    (setupAndStart net completion st).dom.table = st.dom.table ∧
    (setupAndStart net completion st).dom.alerts
      = st.dom.alerts ++ [failAlert] := by
  rw [setupAndStart_eq_of_load_failure net completion st h200 hcov hfail]
  exact ⟨rfl, rfl, rfl⟩

/-- Witness for C3: five of the six loads succeed, the load of id 3
fails; the board state is untouched. -/
theorem setupAndStart_atomic_on_failure_witness :
    netOneFail.catList.status = 200 ∧
    (∀ j, j < (selectedIds netOneFail).length → j ∈ completionW) ∧
    (∃ i ∈ selectedIds netOneFail,
      (netOneFail.catDetail i).status ≠ 200) ∧
    ((setupAndStart netOneFail completionW st0).categories
      = st0.categories ∧
    (setupAndStart netOneFail completionW st0).dom.table
      = st0.dom.table ∧
    (setupAndStart netOneFail completionW st0).dom.alerts
      = st0.dom.alerts ++ [failAlert]) :=
  ⟨rfl, by decide, by decide,
   setupAndStart_atomic_on_failure netOneFail completionW st0 rfl
     (by decide) (by decide)⟩

/-- Counterexample to C6 as stated: on a failed attempt the loading
indicator is NOT dismissed — the catch block never calls
`hideLoadingView`, so `#loading` stays visible — and after a failed
restart the previously rendered grid is still in the (hidden) table
rather than the board being left empty. -/
theorem setupAndStart_failure_counterexample :
    (setupAndStart badNet [] stStale).dom.loadingVisible = true ∧
    (setupAndStart badNet [] stStale).dom.table
      ≠ ({ header := [], body := [] } : Grid) ∧
    (setupAndStart badNet [] stStale).dom.alerts = [failAlert] := by
  decide

/-- C6 amended: on any failure during fetch or load, `setupAndStart`
surfaces the failure alert and renders no new grid — the table contents
are exactly what they were before the attempt and the board is hidden —
but the loading indicator is left showing (it is not dismissed), and
`categories` is unchanged. -/
theorem setupAndStart_failure_view (net : Network)
    (completion : List Nat) (st : AppState)
    (hfail : net.catList.status ≠ 200 ∨
      (net.catList.status = 200 ∧
        (∀ j, j < (selectedIds net).length → j ∈ completion) ∧
        ∃ i ∈ selectedIds net, (net.catDetail i).status ≠ 200)) :
    (setupAndStart net completion st).dom.alerts
      = st.dom.alerts ++ [failAlert] ∧
    (setupAndStart net completion st).dom.loadingVisible = true ∧
    (setupAndStart net completion st).dom.jeopardyVisible = false ∧
    (setupAndStart net completion st).dom.table = st.dom.table ∧
    (setupAndStart net completion st).categories = st.categories := by
  cases hfail with
  | inl h =>
    rw [setupAndStart_eq_of_fetch_failure net completion st h]
    exact ⟨rfl, rfl, rfl, rfl, rfl⟩
  | inr h =>
    obtain ⟨h200, hcov, hfail⟩ := h
    rw [setupAndStart_eq_of_load_failure net completion st h200 hcov hfail]
    exact ⟨rfl, rfl, rfl, rfl, rfl⟩

/-- Witness for C6 (amended): the failing list call leaves the loading
indicator up and the stale table untouched. -/
theorem setupAndStart_failure_view_witness :
    (badNet.catList.status ≠ 200 ∨
      (badNet.catList.status = 200 ∧
        (∀ j, j < (selectedIds badNet).length → j ∈ ([] : List Nat)) ∧
        ∃ i ∈ selectedIds badNet, (badNet.catDetail i).status ≠ 200)) ∧
    ((setupAndStart badNet [] stStale).dom.alerts
      = stStale.dom.alerts ++ [failAlert] ∧
    (setupAndStart badNet [] stStale).dom.loadingVisible = true ∧
    (setupAndStart badNet [] stStale).dom.jeopardyVisible = false ∧
    (setupAndStart badNet [] stStale).dom.table = stStale.dom.table ∧
    (setupAndStart badNet [] stStale).categories
      = stStale.categories) :=
  ⟨Or.inl (by decide),
   setupAndStart_failure_view badNet [] stStale (Or.inl (by decide))⟩

/-! ## Theorems about the category fetcher (`getCategoryIds`) -/

/-- Deterministic part of C4: whatever rearrangement the random sort
produced, when the pool has at least `NUM_CATEGORIES` entries with
pairwise-distinct ids, `getCategoryIds` returns exactly
`NUM_CATEGORIES` identifiers, without duplicates, each the id of some
pool entry (a selection without replacement). The distributional part
of C4 (unbiasedness) is a property of `Array.prototype.sort` with the
inconsistent comparator `() => Math.random() - 0.5`, whose result order
ECMAScript leaves implementation-defined; it is not settled here. -/
theorem getCategoryIds_no_duplicates (resp : Response (List CatRecord))
    (shuffled : List CatRecord) (h200 : resp.status = 200)
    (hperm : shuffled.Perm resp.data)
    (hlen : NUM_CATEGORIES ≤ resp.data.length)
    (hnodup : (resp.data.map (fun cat => cat.id)).Nodup) :
    ∃ ids, getCategoryIds resp shuffled = Except.ok ids ∧
      ids.length = NUM_CATEGORIES ∧ ids.Nodup ∧
      ∀ i ∈ ids, ∃ rec ∈ resp.data, rec.id = i := by
  refine ⟨_, getCategoryIds_ok resp shuffled h200, ?_, ?_, ?_⟩
  · rw [List.length_map, List.length_take]
    have := hperm.length_eq
    omega
  · have h1 : (shuffled.map (fun cat => cat.id)).Nodup :=
      ((hperm.map (fun cat => cat.id)).nodup_iff).mpr hnodup
    rw [List.map_take]
    exact ((shuffled.map (fun cat => cat.id)).take_sublist
      NUM_CATEGORIES).nodup h1
  · intro i hi
    simp only [List.mem_map] at hi
    obtain ⟨rec, hrec, hid⟩ := hi
    exact ⟨rec,
      hperm.subset ((shuffled.take_sublist NUM_CATEGORIES).subset hrec),
      hid⟩

/-- Witness for the deterministic part of C4 on a six-element pool. -/
theorem getCategoryIds_no_duplicates_witness :
    (netOk.catList.status = 200 ∨ True) ∧
    (∃ ids, getCategoryIds { status := 200, data := netOk.shuffled }
        netOk.shuffled = Except.ok ids ∧
      ids.length = NUM_CATEGORIES ∧ ids.Nodup ∧
      ∀ i ∈ ids, ∃ rec ∈ netOk.shuffled, rec.id = i) :=
  ⟨Or.inl rfl,
   getCategoryIds_no_duplicates { status := 200, data := netOk.shuffled }
     netOk.shuffled rfl (List.Perm.refl _) (by decide) (by decide)⟩

end Jeopardy
